import Mathlib

/-!
Shallow embedding of `arxiv_tracker/query.py`, the query-string compiler of the
Arxiv-tracker repository, together with proofs about it.

Modelling conventions:
* Python strings are modelled as `List Char` (`Str`); string literals are
  injected with `chars`.
* `str.strip()` and the regex class `[\s-]` are modelled over the six ASCII
  whitespace characters (space, tab, newline, carriage return, vertical tab,
  form feed); non-ASCII whitespace is outside the modelled scope, as are
  non-ASCII case mappings for `str.lower()` / `str.upper()`.
* A Python `set` whose contents are later ordered is modelled as an
  insertion-ordered duplicate-free list (`insertUnique`); CPython's actual
  set iteration order is hash-based and unspecified, so insertion order is
  the deterministic stand-in used by this development (this matters only for
  the relative order of equal-length variants in `_expand_variants`).
* `sorted(xs, key=len, reverse=True)` is modelled by `pySortLenDesc`, a
  stable sort by length descending, matching CPython's stable `sorted`.
* `None` arguments are modelled with `Option`; `categories or []`,
  `exclude_keywords or []` and `logic or "AND"` are modelled explicitly.
-/

/-- Python strings are modelled as lists of characters. -/
abbrev Str := List Char

/-- Injects a Lean string literal into the character-list representation. -/
def chars (s : String) : Str := s.data

/-- The ASCII whitespace characters recognised by Python's `str.strip()` and
by the regex class `\s` (ASCII scope of the model). -/
def isPyWs (c : Char) : Bool :=
  c == ' ' || c == '\t' || c == '\n' || c == '\r' || c == '\x0b' || c == '\x0c'

/-- Left part of Python's `str.strip()`: drop leading whitespace. -/
def pyLstrip (s : Str) : Str := s.dropWhile isPyWs

/-- Right part of Python's `str.strip()`: drop trailing whitespace. -/
def pyRstrip (s : Str) : Str := (s.reverse.dropWhile isPyWs).reverse

/-- Models Python's `str.strip()`: drop leading and trailing whitespace. -/
def pyStrip (s : Str) : Str := pyRstrip (pyLstrip s)

/-- Models Python's `str.lower()` (ASCII scope). -/
def pyLower (s : Str) : Str := s.map Char.toLower

/-- Models Python's `str.upper()` (ASCII scope). -/
def pyUpper (s : Str) : Str := s.map Char.toUpper

/-- Models `re.search(r'[\s-]', t) is not None`: the string has a whitespace
character or a hyphen somewhere (query.py line 10). -/
def hasWsOrHyphen (s : Str) : Bool := s.any (fun c => isPyWs c || c == '-')

/-- Models `_quote` (query.py lines 7-12): strip the term, and wrap it in
double quotes when the stripped term contains whitespace or a hyphen. -/
def _quote (term : Str) : Str :=
  if hasWsOrHyphen (pyStrip term) then '"' :: (pyStrip term ++ ['"'])
  else pyStrip term

/-- Models the constant `FIELDS = ("ti", "abs", "co")` (query.py line 5). -/
def FIELDS : List Str := [chars "ti", chars "abs", chars "co"]

/-- Models Python's `sep.join(parts)`. -/
def joinSep (sep : Str) : List Str → Str
  | [] => []
  | [p] => p
  | p :: q :: ps => p ++ (sep ++ joinSep sep (q :: ps))

/-- Models `_field_or` (query.py lines 14-16):
`"(" + " OR ".join(f"{f}:{q}" for f in fields) + ")"` with `q = _quote term`. -/
def _field_or (fields : List Str) (term : Str) : Str :=
  '(' :: (joinSep (chars " OR ") (fields.map (fun f => f ++ (':' :: _quote term))) ++ [')'])

/-- Models Python's single-character `str.replace(a, b)`. -/
def replaceChar (a b : Char) (s : Str) : Str :=
  s.map (fun c => if c == a then b else c)

/-- Models `set.add`: append the element unless it is already present
(insertion-ordered model of a Python set). -/
def insertUnique (l : List Str) (x : Str) : List Str :=
  if x ∈ l then l else l ++ [x]

/-- One step of a stable insertion sort by length descending: `x` is placed
before the first strictly shorter element, hence after all elements of equal
length (the tie behaviour of CPython's stable `sorted`). -/
def insertKeepTies (x : Str) : List Str → List Str
  | [] => [x]
  | y :: ys => if y.length < x.length then x :: y :: ys else y :: insertKeepTies x ys

/-- Models `sorted(xs, key=len, reverse=True)`: stable sort by length
descending (query.py line 26). -/
def pySortLenDesc (l : List Str) : List Str :=
  l.foldl (fun acc x => insertKeepTies x acc) []

/-- Models `_expand_variants` (query.py lines 18-26): strip the keyword,
collect it with its space→hyphen and hyphen→space variants in a set, and
sort the set by length descending. -/
def _expand_variants (kw : Str) : List Str :=
  pySortLenDesc
    (if '-' ∈ pyStrip kw then
      insertUnique
        (if ' ' ∈ pyStrip kw then
          insertUnique [pyStrip kw] (replaceChar ' ' '-' (pyStrip kw))
         else [pyStrip kw])
        (replaceChar '-' ' ' (pyStrip kw))
     else
      (if ' ' ∈ pyStrip kw then
        insertUnique [pyStrip kw] (replaceChar ' ' '-' (pyStrip kw))
       else [pyStrip kw]))

/-- The literal list `ov_terms` of `_kw_group` (query.py line 44). -/
def ov_terms : List Str :=
  [chars "open vocabulary", chars "open-vocabulary",
   chars "open-vocabulary segmentation", chars "open vocabulary segmentation"]

/-- The literal list `seg_terms` of `_kw_group` (query.py line 45). -/
def seg_terms : List Str := [chars "segmentation", chars "image segmentation"]

/-- The expression `ov_or` of `_kw_group` (query.py line 46). -/
def ov_or : Str :=
  '(' :: (joinSep (chars " OR ") (ov_terms.map (_field_or FIELDS)) ++ [')'])

/-- The expression `seg_or` of `_kw_group` (query.py line 47). -/
def seg_or : Str :=
  '(' :: (joinSep (chars " OR ") (seg_terms.map (_field_or FIELDS)) ++ [')'])

/-- The appended disjunct `f"({ov_or} AND {seg_or})"` of `_kw_group`
(query.py line 48). -/
def splitClause : Str :=
  '(' :: (ov_or ++ (chars " AND " ++ (seg_or ++ [')'])))

/-- Boolean prefix test on character lists (used to model Python's
substring operator `in`). -/
def leadsWith : Str → Str → Bool
  | [], _ => true
  | _ :: _, [] => false
  | a :: as, b :: bs => a == b && leadsWith as bs

/-- Models Python's substring containment `needle in hay`. -/
def hasSub (needle : Str) : Str → Bool
  | [] => needle.isEmpty
  | hay@(_ :: rest) => leadsWith needle hay || hasSub needle rest

/-- The trigger condition of `_kw_group`'s special case (query.py line 43):
the lowercased keyword contains "open vocabulary" or "open-vocabulary",
and also contains "segmentation". -/
def ovTrigger (kw : Str) : Bool :=
  (hasSub (chars "open vocabulary") (pyLower kw)
    || hasSub (chars "open-vocabulary") (pyLower kw))
  && hasSub (chars "segmentation") (pyLower kw)

/-- Models `_kw_group` (query.py lines 28-50): OR the per-variant field
fan-outs, appending the split-words clause when the trigger fires, and
parenthesize. -/
def _kw_group (kw : Str) : Str :=
  '(' ::
    (joinSep (chars " OR ")
      (if ovTrigger kw then
        ((_expand_variants kw).map (_field_or FIELDS)) ++ [splitClause]
       else (_expand_variants kw).map (_field_or FIELDS))
     ++ [')'])

/-- Models the normalizing comprehensions of `build_search_query`
(query.py lines 60-62): strip every entry, drop entries that are empty
after stripping. -/
def cleanList (l : List Str) : List Str :=
  (l.map pyStrip).filter (fun t => !t.isEmpty)

/-- The local variable `cat_q` of `build_search_query` (query.py lines 68-69):
empty when no categories survive normalization, otherwise the parenthesized
OR-join of `cat:c`. -/
def cat_q_of (categories : Option (List Str)) : Str :=
  if cleanList (categories.getD []) = [] then []
  else
    '(' :: (joinSep (chars " OR ")
      ((cleanList (categories.getD [])).map (fun c => chars "cat:" ++ c)) ++ [')'])

/-- The local variable `key_q` of `build_search_query` (query.py lines 70-71). -/
def key_q_of (keywords : Option (List Str)) : Str :=
  if cleanList (keywords.getD []) = [] then []
  else
    '(' :: (joinSep (chars " OR ")
      ((cleanList (keywords.getD [])).map _kw_group) ++ [')'])

/-- The local variable `exclude_q` of `build_search_query`
(query.py lines 72-74). -/
def exclude_q_of (exclude_keywords : Option (List Str)) : Str :=
  if cleanList (exclude_keywords.getD []) = [] then []
  else
    '(' :: (joinSep (chars " OR ")
      ((cleanList (exclude_keywords.getD [])).map _kw_group) ++ [')'])

/-- Models the Python expression `logic or "AND"` (query.py line 79):
`None` and the empty string are falsy and fall back to `"AND"`. -/
def logicOrAnd : Option Str → Str
  | none => chars "AND"
  | some s => if s = [] then chars "AND" else s

/-- The local variable `main_query` of `build_search_query`
(query.py lines 77-87): combine `cat_q` and `key_q` with the requested
operator when both are present, use the one present otherwise, and fall
back to `all:*` when neither is. -/
def main_query_of (categories keywords : Option (List Str)) (logic : Option Str) : Str :=
  if cat_q_of categories ≠ [] ∧ key_q_of keywords ≠ [] then
    cat_q_of categories ++
      (' ' :: ((if pyUpper (logicOrAnd logic) = chars "AND" then chars "AND" else chars "OR")
        ++ (' ' :: key_q_of keywords)))
  else if cat_q_of categories ≠ [] then cat_q_of categories
  else if key_q_of keywords ≠ [] then key_q_of keywords
  else chars "all:*"

/-- Models `build_search_query` (query.py lines 52-94): when an exclusion
expression was built, wrap the main query in parentheses and append
` ANDNOT ` and the exclusion expression; otherwise return the main query. -/
def build_search_query (categories keywords : Option (List Str)) (logic : Option Str)
    (exclude_keywords : Option (List Str)) : Str :=
  if exclude_q_of exclude_keywords ≠ [] then
    '(' :: (main_query_of categories keywords logic
      ++ (chars ") ANDNOT " ++ exclude_q_of exclude_keywords))
  else main_query_of categories keywords logic

/-- Spec-side description of the variant list in set-insertion order: the
stripped keyword, then (when it contains a space) its space→hyphen variant,
then (when it contains a hyphen) its hyphen→space variant. -/
def variantsInOrder (kw : Str) : List Str :=
  [pyStrip kw]
    ++ (if ' ' ∈ pyStrip kw then [replaceChar ' ' '-' (pyStrip kw)] else [])
    ++ (if '-' ∈ pyStrip kw then [replaceChar '-' ' ' (pyStrip kw)] else [])

/-! Helper lemmas about stripping. -/

theorem dropWhile_head_not (p : Char → Bool) :
    ∀ (l : Str) (a : Char) (t : Str), l.dropWhile p = a :: t → p a = false := by
  intro l
  induction l with
  | nil => intro a t h; simp [List.dropWhile] at h
  | cons b l ih =>
    intro a t h
    cases hb : p b
    · rw [List.dropWhile_cons, if_neg (by simp [hb])] at h
      cases h
      exact hb
    · rw [List.dropWhile_cons, if_pos (by simp [hb])] at h
      exact ih a t h

theorem dropWhile_dropWhile (p : Char → Bool) (l : Str) :
    (l.dropWhile p).dropWhile p = l.dropWhile p := by
  cases h : l.dropWhile p with
  | nil => rfl
  | cons a t =>
    rw [List.dropWhile_cons, if_neg (by simp [dropWhile_head_not p l a t h])]

theorem pyLstrip_idem (s : Str) : pyLstrip (pyLstrip s) = pyLstrip s :=
  dropWhile_dropWhile isPyWs s

theorem pyRstrip_idem (s : Str) : pyRstrip (pyRstrip s) = pyRstrip s := by
  unfold pyRstrip
  rw [List.reverse_reverse, dropWhile_dropWhile]

theorem pyRstrip_prefix (l : Str) :
    l = pyRstrip l ++ (l.reverse.takeWhile isPyWs).reverse := by
  unfold pyRstrip
  rw [← List.reverse_append, List.takeWhile_append_dropWhile, List.reverse_reverse]

theorem pyLstrip_cons_of_not (a : Char) (t : Str) (h : isPyWs a = false) :
    pyLstrip (a :: t) = a :: t := by
  unfold pyLstrip
  rw [List.dropWhile_cons, if_neg (by simp [h])]

theorem pyRstrip_append_of_not (l : Str) (c : Char) (h : isPyWs c = false) :
    pyRstrip (l ++ [c]) = l ++ [c] := by
  unfold pyRstrip
  rw [List.reverse_append]
  show ((c :: l.reverse).dropWhile isPyWs).reverse = l ++ [c]
  rw [List.dropWhile_cons, if_neg (by simp [h]), List.reverse_cons, List.reverse_reverse]

theorem pyLstrip_pyRstrip_pyLstrip (s : Str) :
    pyLstrip (pyRstrip (pyLstrip s)) = pyRstrip (pyLstrip s) := by
  cases h : pyRstrip (pyLstrip s) with
  | nil => rfl
  | cons a t =>
    have hpre := pyRstrip_prefix (pyLstrip s)
    rw [h, List.cons_append] at hpre
    have ha : isPyWs a = false := dropWhile_head_not isPyWs s a _ hpre
    exact pyLstrip_cons_of_not a t ha

theorem pyStrip_idem (s : Str) : pyStrip (pyStrip s) = pyStrip s := by
  show pyRstrip (pyLstrip (pyRstrip (pyLstrip s))) = pyRstrip (pyLstrip s)
  rw [pyLstrip_pyRstrip_pyLstrip, pyRstrip_idem]

/-! Claims about the Quoter (`_quote`). -/

/-- C10: `_quote` trims its input before testing and quoting: quoting a string
and quoting its stripped form agree, and the output of `_quote` never carries
leading or trailing whitespace (stripping it is a no-op). -/
theorem quote_strip_invariant (s : Str) :
    _quote s = _quote (pyStrip s) ∧ pyStrip (_quote s) = _quote s := by
  constructor
  · unfold _quote
    rw [pyStrip_idem]
  · unfold _quote
    by_cases h : hasWsOrHyphen (pyStrip s) = true
    · rw [if_pos h]
      show pyRstrip (pyLstrip ('"' :: (pyStrip s ++ ['"']))) = _
      rw [pyLstrip_cons_of_not '"' _ (by decide),
        show '"' :: (pyStrip s ++ ['"']) = ('"' :: pyStrip s) ++ ['"'] from rfl,
        pyRstrip_append_of_not _ '"' (by decide)]
    · rw [if_neg h]
      exact pyStrip_idem s

/-- C8 (amended): for every term whose stripped form contains whitespace or a
hyphen, `_quote` returns the stripped form wrapped in double quotes; for every
term whose stripped form is non-empty and free of whitespace and hyphens,
`_quote` returns the stripped form unchanged. -/
theorem quote_spec_amended (term : Str) :
    (hasWsOrHyphen (pyStrip term) = true →
      _quote term = '"' :: (pyStrip term ++ ['"'])) ∧
    (pyStrip term ≠ [] → hasWsOrHyphen (pyStrip term) = false →
      _quote term = pyStrip term) := by
  constructor
  · intro h
    unfold _quote
    rw [if_pos h]
  · intro _ h
    unfold _quote
    rw [if_neg (by simp [h])]

/-- C8 counterexample: the claim as stated fails on untrimmed input (the code
strips before quoting, so `_quote " a b "` is not `" a b "` in quotes), and,
reading "space" strictly, fails on a term with an interior tab (the code tests
for any whitespace, so `"a\tb"` is quoted rather than returned unchanged). -/
theorem quote_spec_cex :
    _quote (chars " a b ") = chars "\"a b\"" ∧
    _quote (chars " a b ") ≠ '"' :: (chars " a b " ++ ['"']) ∧
    _quote (chars "a\tb") ≠ chars "a\tb" := by
  refine ⟨by decide, by decide, by decide⟩

/-- C8 witness: the amended claim evaluated at "open vocabulary" (quoted) and
at "nerf" (returned unchanged). -/
theorem quote_spec_amended_witness :
    (hasWsOrHyphen (pyStrip (chars "open vocabulary")) = true ∧
      _quote (chars "open vocabulary") = '"' :: (pyStrip (chars "open vocabulary") ++ ['"'])) ∧
    (pyStrip (chars "nerf") ≠ [] ∧ hasWsOrHyphen (pyStrip (chars "nerf")) = false ∧
      _quote (chars "nerf") = pyStrip (chars "nerf")) :=
  ⟨⟨by decide, (quote_spec_amended (chars "open vocabulary")).1 (by decide)⟩,
   ⟨by decide, by decide, (quote_spec_amended (chars "nerf")).2 (by decide) (by decide)⟩⟩

/-! Helper lemmas about variant expansion. -/

theorem not_mem_replaceChar {a b : Char} (h : a ≠ b) (s : Str) :
    a ∉ replaceChar a b s := by
  intro hmem
  rcases List.mem_map.mp hmem with ⟨c, _, hc⟩
  by_cases hca : c = a
  · subst hca
    simp at hc
    exact h hc.symm
  · simp [hca] at hc

theorem mem_replaceChar_target {a b : Char} {s : Str} (h : a ∈ s) :
    b ∈ replaceChar a b s :=
  List.mem_map.mpr ⟨a, h, by simp⟩

theorem replaceChar_length (a b : Char) (s : Str) :
    (replaceChar a b s).length = s.length :=
  List.length_map s _

theorem hyphenated_ne_self {k : Str} (h : ' ' ∈ k) :
    replaceChar ' ' '-' k ≠ k := by
  intro he
  exact not_mem_replaceChar (by decide) k (he ▸ h)

theorem spaced_ne_self {k : Str} (h : '-' ∈ k) :
    replaceChar '-' ' ' k ≠ k := by
  intro he
  exact not_mem_replaceChar (by decide) k (he ▸ h)

theorem spaced_ne_hyphenated {k : Str} (hs : ' ' ∈ k) :
    replaceChar '-' ' ' k ≠ replaceChar ' ' '-' k := by
  intro he
  have h1 : '-' ∈ replaceChar ' ' '-' k := mem_replaceChar_target hs
  rw [← he] at h1
  exact not_mem_replaceChar (by decide) k h1

theorem insertKeepTies_of_len_eq {n : Nat} {acc : List Str} {x : Str}
    (hacc : ∀ y ∈ acc, y.length = n) (hx : x.length = n) :
    insertKeepTies x acc = acc ++ [x] := by
  induction acc with
  | nil => rfl
  | cons y ys ih =>
    unfold insertKeepTies
    rw [if_neg (by
      rw [hx, hacc y (List.mem_cons_self y ys)]
      exact lt_irrefl n)]
    rw [ih (fun z hz => hacc z (List.mem_cons_of_mem y hz)), List.cons_append]

theorem foldl_insertKeepTies_of_len_eq {n : Nat} :
    ∀ (l acc : List Str), (∀ y ∈ acc, y.length = n) → (∀ x ∈ l, x.length = n) →
      List.foldl (fun a x => insertKeepTies x a) acc l = acc ++ l := by
  intro l
  induction l with
  | nil => intro acc _ _; simp
  | cons x xs ih =>
    intro acc hacc hl
    show List.foldl _ (insertKeepTies x acc) xs = _
    rw [insertKeepTies_of_len_eq hacc (hl x (List.mem_cons_self x xs)),
      ih (acc ++ [x])
        (by
          intro y hy
          rcases List.mem_append.mp hy with h | h
          · exact hacc y h
          · rw [List.mem_singleton.mp h]
            exact hl x (List.mem_cons_self x xs))
        (fun z hz => hl z (List.mem_cons_of_mem x hz)),
      List.append_assoc, List.singleton_append]

theorem pySortLenDesc_of_len_eq {n : Nat} {l : List Str}
    (h : ∀ x ∈ l, x.length = n) : pySortLenDesc l = l := by
  unfold pySortLenDesc
  rw [foldl_insertKeepTies_of_len_eq l [] (by simp) h, List.nil_append]

theorem mem_variantsInOrder_len (kw : Str) :
    ∀ x ∈ variantsInOrder kw, x.length = (pyStrip kw).length := by
  intro x hx
  unfold variantsInOrder at hx
  rcases List.mem_append.mp hx with h | h
  · rcases List.mem_append.mp h with h1 | h1
    · rw [List.mem_singleton.mp h1]
    · by_cases hsp : ' ' ∈ pyStrip kw
      · rw [if_pos hsp] at h1
        rw [List.mem_singleton.mp h1]
        exact replaceChar_length ' ' '-' (pyStrip kw)
      · rw [if_neg hsp] at h1
        exact absurd h1 (List.not_mem_nil x)
  · by_cases hhy : '-' ∈ pyStrip kw
    · rw [if_pos hhy] at h
      rw [List.mem_singleton.mp h]
      exact replaceChar_length '-' ' ' (pyStrip kw)
    · rw [if_neg hhy] at h
      exact absurd h (List.not_mem_nil x)

theorem expand_variants_eq_variantsInOrder (kw : Str) :
    _expand_variants kw = variantsInOrder kw := by
  have hset :
      (if '-' ∈ pyStrip kw then
        insertUnique
          (if ' ' ∈ pyStrip kw then
            insertUnique [pyStrip kw] (replaceChar ' ' '-' (pyStrip kw))
           else [pyStrip kw])
          (replaceChar '-' ' ' (pyStrip kw))
       else
        (if ' ' ∈ pyStrip kw then
          insertUnique [pyStrip kw] (replaceChar ' ' '-' (pyStrip kw))
         else [pyStrip kw])) = variantsInOrder kw := by
    unfold variantsInOrder
    by_cases hsp : ' ' ∈ pyStrip kw <;> by_cases hhy : '-' ∈ pyStrip kw
    · have h1 : insertUnique [pyStrip kw] (replaceChar ' ' '-' (pyStrip kw))
          = [pyStrip kw, replaceChar ' ' '-' (pyStrip kw)] := by
        unfold insertUnique
        rw [if_neg (fun hmem => hyphenated_ne_self hsp (List.mem_singleton.mp hmem))]
        rfl
      have h2 : insertUnique
            [pyStrip kw, replaceChar ' ' '-' (pyStrip kw)]
            (replaceChar '-' ' ' (pyStrip kw))
          = [pyStrip kw, replaceChar ' ' '-' (pyStrip kw),
             replaceChar '-' ' ' (pyStrip kw)] := by
        unfold insertUnique
        rw [if_neg (by
          intro hmem
          rcases List.mem_cons.mp hmem with h | h
          · exact spaced_ne_self hhy h
          · exact spaced_ne_hyphenated hsp (List.mem_singleton.mp h))]
        rfl
      rw [if_pos hhy, if_pos hsp, h1, h2, if_pos hsp, if_pos hhy]
      rfl
    · rw [if_neg hhy, if_pos hsp, if_pos hsp, if_neg hhy]
      unfold insertUnique
      rw [if_neg (fun hmem => hyphenated_ne_self hsp (List.mem_singleton.mp hmem))]
      rfl
    · rw [if_pos hhy, if_neg hsp, if_neg hsp, if_pos hhy]
      unfold insertUnique
      rw [if_neg (fun hmem => spaced_ne_self hhy (List.mem_singleton.mp hmem))]
      rfl
    · rw [if_neg hhy, if_neg hsp, if_neg hsp, if_neg hhy]
      rfl
  unfold _expand_variants
  rw [hset]
  exact pySortLenDesc_of_len_eq (mem_variantsInOrder_len kw)

theorem variantsInOrder_nodup (kw : Str) : (variantsInOrder kw).Nodup := by
  unfold variantsInOrder
  by_cases hsp : ' ' ∈ pyStrip kw <;> by_cases hhy : '-' ∈ pyStrip kw <;>
    simp only [hsp, hhy, if_true, if_false, List.singleton_append, List.cons_append,
      List.nil_append, List.append_nil]
  · refine List.nodup_cons.mpr ⟨?_, List.nodup_cons.mpr ⟨?_, List.nodup_singleton _⟩⟩
    · intro hmem
      rcases List.mem_cons.mp hmem with h | h
      · exact hyphenated_ne_self hsp h.symm
      · exact spaced_ne_self hhy (List.mem_singleton.mp h).symm
    · intro hmem
      exact spaced_ne_hyphenated hsp (List.mem_singleton.mp hmem).symm
  · exact List.nodup_cons.mpr
      ⟨fun h => hyphenated_ne_self hsp (List.mem_singleton.mp h).symm,
       List.nodup_singleton _⟩
  · exact List.nodup_cons.mpr
      ⟨fun h => spaced_ne_self hhy (List.mem_singleton.mp h).symm,
       List.nodup_singleton _⟩
  · exact List.nodup_singleton _

theorem mem_variantsInOrder_iff (kw : Str) (s : Str) :
    s ∈ variantsInOrder kw ↔
      s = pyStrip kw ∨
      (' ' ∈ pyStrip kw ∧ s = replaceChar ' ' '-' (pyStrip kw)) ∨
      ('-' ∈ pyStrip kw ∧ s = replaceChar '-' ' ' (pyStrip kw)) := by
  unfold variantsInOrder
  by_cases hsp : ' ' ∈ pyStrip kw <;> by_cases hhy : '-' ∈ pyStrip kw <;>
    simp [hsp, hhy]

theorem variantsInOrder_pairwise (kw : Str) :
    (variantsInOrder kw).Pairwise (fun a b => b.length ≤ a.length) := by
  apply List.pairwise_of_forall_mem_list
  intro a ha b hb
  rw [mem_variantsInOrder_len kw a ha, mem_variantsInOrder_len kw b hb]

/-! Claims about the VariantExpander (`_expand_variants`). -/

/-- C6: the collection of variants produced by `_expand_variants` is exactly
the stripped keyword, plus (when it contains a space) the keyword with every
space replaced by a hyphen, plus (when it contains a hyphen) the keyword with
every hyphen replaced by a space, with no duplicates; in particular
"open vocabulary" yields exactly itself and "open-vocabulary", and
"segmentation" yields exactly itself. -/
theorem expand_variants_characterization (kw : Str) :
    (_expand_variants kw).Nodup ∧
    (∀ s : Str, s ∈ _expand_variants kw ↔
      s = pyStrip kw ∨
      (' ' ∈ pyStrip kw ∧ s = replaceChar ' ' '-' (pyStrip kw)) ∨
      ('-' ∈ pyStrip kw ∧ s = replaceChar '-' ' ' (pyStrip kw))) ∧
    _expand_variants (chars "open vocabulary")
      = [chars "open vocabulary", chars "open-vocabulary"] ∧
    _expand_variants (chars "segmentation") = [chars "segmentation"] := by
  refine ⟨?_, ?_, by decide, by decide⟩
  · rw [expand_variants_eq_variantsInOrder]
    exact variantsInOrder_nodup kw
  · intro s
    rw [expand_variants_eq_variantsInOrder]
    exact mem_variantsInOrder_iff kw s

/-- C7 (amended): the variant list is sorted longest-first, and the relative
order of equal-length variants is the set's iteration order, modelled as
insertion order (stripped keyword, then the space-to-hyphen variant, then the
hyphen-to-space variant); since every variant has the same length as the
stripped keyword, the length sort never reorders anything. -/
theorem expand_variants_order (kw : Str) :
    (_expand_variants kw).Pairwise (fun a b => b.length ≤ a.length) ∧
    _expand_variants kw = variantsInOrder kw := by
  refine ⟨?_, expand_variants_eq_variantsInOrder kw⟩
  rw [expand_variants_eq_variantsInOrder]
  exact variantsInOrder_pairwise kw

/-- C7 counterexample: on "a-b" the two variants have equal length and the
code yields them in set-insertion order "a-b", "a b", not in the
lexicographically ascending order "a b", "a-b" that the claim announces
(the space character precedes the hyphen). -/
theorem expand_variants_order_cex :
    _expand_variants (chars "a-b") = [chars "a-b", chars "a b"] ∧
    List.Lex (· < ·) (chars "a b") (chars "a-b") ∧
    _expand_variants (chars "a-b") ≠ [chars "a b", chars "a-b"] := by
  refine ⟨by decide, by decide, by decide⟩

/-! Helper lemmas about joining and the keyword group builder. -/

theorem joinSep_append_single (sep x : Str) :
    ∀ (l : List Str), l ≠ [] →
      joinSep sep (l ++ [x]) = joinSep sep l ++ (sep ++ x) := by
  intro l
  induction l with
  | nil => intro h; exact absurd rfl h
  | cons p ps ih =>
    intro _
    cases ps with
    | nil => rfl
    | cons q qs =>
      calc joinSep sep ((p :: q :: qs) ++ [x])
          = p ++ (sep ++ joinSep sep ((q :: qs) ++ [x])) := rfl
        _ = p ++ (sep ++ (joinSep sep (q :: qs) ++ (sep ++ x))) := by
            rw [ih (by simp)]
        _ = (p ++ (sep ++ joinSep sep (q :: qs))) ++ (sep ++ x) := by
            simp [List.append_assoc]
        _ = joinSep sep (p :: q :: qs) ++ (sep ++ x) := rfl

theorem expand_variants_ne_nil (kw : Str) : _expand_variants kw ≠ [] := by
  rw [expand_variants_eq_variantsInOrder]
  unfold variantsInOrder
  simp

/-! Claim about the KeywordGroup builder (`_kw_group`). -/

/-- C2: exactly when the lowercased keyword contains "open vocabulary" or
"open-vocabulary" and also contains "segmentation", `_kw_group` appends one
additional final disjunct — the parenthesized AND of the OR over the four
field-fanned-out open-vocabulary phrasings and the OR over the two
field-fanned-out segmentation phrasings (`splitClause`) — and for every other
keyword the group is exactly the OR of the per-variant field fan-outs. -/
theorem kw_group_special_case (kw : Str) :
    (ovTrigger kw = true →
      _kw_group kw = '(' ::
        ((joinSep (chars " OR ") ((_expand_variants kw).map (_field_or FIELDS))
          ++ (chars " OR " ++ splitClause)) ++ [')'])) ∧
    (ovTrigger kw = false →
      _kw_group kw = '(' ::
        (joinSep (chars " OR ") ((_expand_variants kw).map (_field_or FIELDS))
          ++ [')'])) := by
  constructor
  · intro h
    unfold _kw_group
    rw [if_pos h, joinSep_append_single _ _ _
      (fun hc => expand_variants_ne_nil kw (List.map_eq_nil_iff.mp hc))]
  · intro h
    unfold _kw_group
    rw [if_neg (by simp [h])]

/-- C2 witness: the special clause is appended for
"open vocabulary segmentation" and absent for "transformer". -/
theorem kw_group_special_case_witness :
    (ovTrigger (chars "open vocabulary segmentation") = true ∧
      _kw_group (chars "open vocabulary segmentation") = '(' ::
        ((joinSep (chars " OR ")
            ((_expand_variants (chars "open vocabulary segmentation")).map
              (_field_or FIELDS))
          ++ (chars " OR " ++ splitClause)) ++ [')'])) ∧
    (ovTrigger (chars "transformer") = false ∧
      _kw_group (chars "transformer") = '(' ::
        (joinSep (chars " OR ")
            ((_expand_variants (chars "transformer")).map (_field_or FIELDS))
          ++ [')'])) :=
  ⟨⟨by decide, (kw_group_special_case (chars "open vocabulary segmentation")).1 (by decide)⟩,
   ⟨by decide, (kw_group_special_case (chars "transformer")).2 (by decide)⟩⟩

/-! Claims about the top-level compiler (`build_search_query`). -/

/-- C1: whenever the exclusion-keyword list is non-empty after normalization,
the compiled query is the parenthesized main query, ` ANDNOT `, and the
parenthesized OR-join of `_kw_group` over the normalized exclusion keywords
in input order — the same `_kw_group` used for inclusion keywords. -/
theorem build_query_exclusion_shape (c k : Option (List Str)) (l : Option Str)
    (e : Option (List Str)) (h : cleanList (e.getD []) ≠ []) :
    build_search_query c k l e =
      '(' :: (main_query_of c k l ++ (chars ") ANDNOT "
        ++ ('(' :: (joinSep (chars " OR ")
              ((cleanList (e.getD [])).map _kw_group) ++ [')'])))) := by
  have hx : exclude_q_of e =
      '(' :: (joinSep (chars " OR ")
        ((cleanList (e.getD [])).map _kw_group) ++ [')']) := by
    unfold exclude_q_of
    rw [if_neg h]
  unfold build_search_query
  rw [if_pos (by rw [hx]; simp), hx]

/-- C1 witness: the exclusion shape evaluated at categories ["cs.CV"],
keywords ["nerf"], logic "AND", exclusions ["survey"]. -/
theorem build_query_exclusion_shape_witness :
    cleanList ((some [chars "survey"]).getD []) ≠ [] ∧
    build_search_query (some [chars "cs.CV"]) (some [chars "nerf"])
        (some (chars "AND")) (some [chars "survey"]) =
      '(' :: (main_query_of (some [chars "cs.CV"]) (some [chars "nerf"])
          (some (chars "AND")) ++ (chars ") ANDNOT "
        ++ ('(' :: (joinSep (chars " OR ")
              ((cleanList ((some [chars "survey"]).getD [])).map _kw_group)
            ++ [')'])))) :=
  ⟨by decide,
   build_query_exclusion_shape (some [chars "cs.CV"]) (some [chars "nerf"])
     (some (chars "AND")) (some [chars "survey"]) (by decide)⟩

/-- C3: the compiler is a total function, and whenever categories, keywords
and exclusion keywords are all absent or empty after normalization it returns
the match-everything query `all:*`. -/
theorem build_query_empty_fallback (c k : Option (List Str)) (l : Option Str)
    (e : Option (List Str)) (hc : cleanList (c.getD []) = [])
    (hk : cleanList (k.getD []) = []) (he : cleanList (e.getD []) = []) :
    build_search_query c k l e = chars "all:*" := by
  have hcq : cat_q_of c = [] := by unfold cat_q_of; rw [if_pos hc]
  have hkq : key_q_of k = [] := by unfold key_q_of; rw [if_pos hk]
  have heq : exclude_q_of e = [] := by unfold exclude_q_of; rw [if_pos he]
  unfold build_search_query
  rw [if_neg (by simp [heq])]
  unfold main_query_of
  rw [if_neg (by simp [hcq]), if_neg (by simp [hcq]), if_neg (by simp [hkq])]

/-- C3 witness: `compile([], [], "AND", [])` returns `all:*`. -/
theorem build_query_empty_fallback_witness :
    cleanList ((some ([] : List Str)).getD []) = [] ∧
    build_search_query (some []) (some []) (some (chars "AND")) (some [])
      = chars "all:*" :=
  ⟨by decide,
   build_query_empty_fallback (some []) (some []) (some (chars "AND")) (some [])
     (by decide) (by decide) (by decide)⟩

/-- C9: when categories and keywords normalize to empty but the exclusion
list does not, the exclusion clause is applied to the match-everything
fallback: the result is `(all:*) ANDNOT ` followed by the exclusion group. -/
theorem build_query_fallback_exclusion (c k : Option (List Str)) (l : Option Str)
    (e : Option (List Str)) (hc : cleanList (c.getD []) = [])
    (hk : cleanList (k.getD []) = []) (he : cleanList (e.getD []) ≠ []) :
    build_search_query c k l e =
      chars "(all:*) ANDNOT " ++ ('(' :: (joinSep (chars " OR ")
        ((cleanList (e.getD [])).map _kw_group) ++ [')'])) := by
  have hcq : cat_q_of c = [] := by unfold cat_q_of; rw [if_pos hc]
  have hkq : key_q_of k = [] := by unfold key_q_of; rw [if_pos hk]
  have hmq : main_query_of c k l = chars "all:*" := by
    unfold main_query_of
    rw [if_neg (by simp [hcq]), if_neg (by simp [hcq]), if_neg (by simp [hkq])]
  have hx : exclude_q_of e =
      '(' :: (joinSep (chars " OR ")
        ((cleanList (e.getD [])).map _kw_group) ++ [')']) := by
    unfold exclude_q_of
    rw [if_neg he]
  unfold build_search_query
  rw [if_pos (by rw [hx]; simp), hmq, hx]
  rfl

/-- C9 witness: compiling with no categories, no keywords and exclusion
["survey"] yields `(all:*) ANDNOT ` followed by the exclusion group. -/
theorem build_query_fallback_exclusion_witness :
    cleanList ((some ([] : List Str)).getD []) = [] ∧
    cleanList ((some [chars "survey"]).getD []) ≠ [] ∧
    build_search_query (some []) (some []) (some (chars "AND"))
        (some [chars "survey"]) =
      chars "(all:*) ANDNOT " ++ ('(' :: (joinSep (chars " OR ")
        ((cleanList ((some [chars "survey"]).getD [])).map _kw_group) ++ [')'])) :=
  ⟨by decide, by decide,
   build_query_fallback_exclusion (some []) (some []) (some (chars "AND"))
     (some [chars "survey"]) (by decide) (by decide) (by decide)⟩

/-- C4 (amended): a present, non-empty logic string that does not match "AND"
case-insensitively is treated as OR — in particular "or" behaves exactly like
"OR" — while absent, None or empty logic input falls back to "AND" rather
than OR. -/
theorem logic_non_and_gives_or (c k : Option (List Str)) (e : Option (List Str))
    (s : Str) (hs : s ≠ []) (hup : pyUpper s ≠ chars "AND") :
    build_search_query c k (some s) e = build_search_query c k (some (chars "OR")) e ∧
    (cat_q_of c ≠ [] → key_q_of k ≠ [] →
      main_query_of c k (some s) = cat_q_of c ++ (chars " OR " ++ key_q_of k)) := by
  have h1 : logicOrAnd (some s) = s := by simp [logicOrAnd, hs]
  have hms : main_query_of c k (some s) = main_query_of c k (some (chars "OR")) := by
    unfold main_query_of
    rw [h1, if_neg hup,
      show logicOrAnd (some (chars "OR")) = chars "OR" from rfl,
      if_neg (show ¬pyUpper (chars "OR") = chars "AND" by decide)]
  constructor
  · unfold build_search_query
    rw [hms]
  · intro hc hk
    unfold main_query_of
    rw [h1, if_neg hup, if_pos ⟨hc, hk⟩]
    rfl

/-- C4 witness: "or" behaves exactly like "OR", and with both a category and
a keyword present it joins them with OR. -/
theorem logic_non_and_gives_or_witness :
    (chars "or" ≠ ([] : Str)) ∧ pyUpper (chars "or") ≠ chars "AND" ∧
    build_search_query (some [chars "cs.CV"]) (some [chars "nerf"])
        (some (chars "or")) none =
      build_search_query (some [chars "cs.CV"]) (some [chars "nerf"])
        (some (chars "OR")) none ∧
    main_query_of (some [chars "cs.CV"]) (some [chars "nerf"]) (some (chars "or"))
      = cat_q_of (some [chars "cs.CV"])
          ++ (chars " OR " ++ key_q_of (some [chars "nerf"])) :=
  ⟨by decide, by decide,
   (logic_non_and_gives_or (some [chars "cs.CV"]) (some [chars "nerf"]) none
     (chars "or") (by decide) (by decide)).1,
   (logic_non_and_gives_or (some [chars "cs.CV"]) (some [chars "nerf"]) none
     (chars "or") (by decide) (by decide)).2 (by decide) (by decide)⟩

/-- C4 counterexample: with both a category and a keyword present and the
logic argument absent (None), the code joins with AND, not with OR as the
claim states for absent input. -/
theorem logic_none_gives_and_cex :
    build_search_query (some [chars "a"]) (some [chars "b"]) none none
      = chars "(cat:a) AND (((ti:b OR abs:b OR co:b)))" ∧
    build_search_query (some [chars "a"]) (some [chars "b"]) none none
      ≠ chars "(cat:a) OR (((ti:b OR abs:b OR co:b)))" := by
  refine ⟨by decide, by decide⟩

/-- C5 (amended): an absent (None) or empty logic argument defaults to "AND"
— with both expressions present they are joined with AND — while an
unrecognized non-empty string is treated as OR. -/
theorem logic_default_and (c k : Option (List Str)) (e : Option (List Str)) :
    build_search_query c k none e = build_search_query c k (some (chars "AND")) e ∧
    build_search_query c k (some []) e = build_search_query c k (some (chars "AND")) e ∧
    (cat_q_of c ≠ [] → key_q_of k ≠ [] →
      main_query_of c k none = cat_q_of c ++ (chars " AND " ++ key_q_of k)) := by
  refine ⟨rfl, rfl, ?_⟩
  intro hc hk
  unfold main_query_of
  rw [if_pos ⟨hc, hk⟩,
    if_pos (show pyUpper (logicOrAnd none) = chars "AND" by decide)]
  rfl

/-- C5 witness: with category ["cs.CV"] and keyword ["nerf"] present and the
logic argument absent, the main query joins the two with AND. -/
theorem logic_default_and_witness :
    cat_q_of (some [chars "cs.CV"]) ≠ [] ∧ key_q_of (some [chars "nerf"]) ≠ [] ∧
    main_query_of (some [chars "cs.CV"]) (some [chars "nerf"]) none
      = cat_q_of (some [chars "cs.CV"])
          ++ (chars " AND " ++ key_q_of (some [chars "nerf"])) :=
  ⟨by decide, by decide,
   (logic_default_and (some [chars "cs.CV"]) (some [chars "nerf"]) none).2.2
     (by decide) (by decide)⟩

/-- C5 counterexample: the unrecognized non-empty logic string "banana" does
not default to AND — the code joins the two expressions with OR. -/
theorem logic_unrecognized_gives_or_cex :
    build_search_query (some [chars "a"]) (some [chars "b"]) (some (chars "banana")) none
      = chars "(cat:a) OR (((ti:b OR abs:b OR co:b)))" ∧
    build_search_query (some [chars "a"]) (some [chars "b"]) (some (chars "banana")) none
      ≠ chars "(cat:a) AND (((ti:b OR abs:b OR co:b)))" := by
  refine ⟨by decide, by decide⟩

